import Mathlib

/-!
Verification of the SoftDesk REST API permission and invariant logic.

The development shallowly embeds the Django models (core/models.py), the
custom permission classes (project/permissions.py), the serializers
(project/serializers.py) and the view sets (project/views.py) as pure
Lean functions over an explicit database state.  Framework behaviour that
the code relies on is embedded faithfully:

* DRF dispatch runs view-level permission checks (has_permission) before
  the handler; object-level checks (has_object_permission) run only inside
  get_object, i.e. only for detail routes.
* BasePermission.has_permission and has_object_permission default to True;
  a permission class that overrides only one of them leaves the other
  vacuously true.
* All requests modelled here carry an authenticated principal (a user id),
  so IsAuthenticated passes; unauthenticated requests are rejected by the
  framework before any code embedded here runs and are out of scope.
* Outcomes are abstracted as a small inductive: allowed, forbidden (403),
  notFound (404), methodNotAllowed (405), validationError (400), and
  internalError for an exception that no code path catches (e.g. a bare
  Model.objects.get raising DoesNotExist outside any try block).

Timestamps (created_time) are omitted: no verified property mentions them.
-/

abbrev UserId := Nat

/-- Project row (core/models.py, class Project).  The author foreign key is
nullable (on_delete=SET_NULL). -/
structure Project where
  id : Nat
  title : String
  description : String
  type : String
  author_user_id : Option UserId
deriving DecidableEq, Repr

/-- Contributor row (core/models.py, class Contributor).  Both foreign keys
are nullable (on_delete=SET_NULL).  permission is the raw stored string,
"OWN" for owner and "CTR" for contributor. -/
structure Contributor where
  id : Nat
  project_id : Option Nat
  user_id : Option UserId
  permission : String
  role : String
deriving DecidableEq, Repr

/-- Issue row (core/models.py, class Issue).  project_id is non-nullable
(on_delete=CASCADE); author and assignee are nullable (SET_NULL). -/
structure Issue where
  id : Nat
  title : String
  description : String
  tag : String
  priority : String
  status : String
  project_id : Nat
  author_user_id : Option UserId
  assignee_user_id : Option UserId
deriving DecidableEq, Repr

/-- Comment row (core/migrations/0007_comment.py; the model class itself is
imported by the views from core.models).  Both foreign keys use CASCADE. -/
structure Comment where
  id : Nat
  issue_id : Nat
  author_user_id : Option UserId
  description : String
deriving DecidableEq, Repr

/-- The relational store: one list per table, plus the next auto-generated
primary key for the tables the embedded operations insert into. -/
structure DB where
  users : List UserId
  projects : List Project
  contributors : List Contributor
  issues : List Issue
  comments : List Comment
  nextProjectId : Nat
  nextContributorId : Nat
  nextIssueId : Nat
  nextCommentId : Nat
deriving DecidableEq, Repr

/-- Project.objects.get(id=pid): the first row with the given primary key,
none when the table has no such row (DoesNotExist). -/
def findProject (db : DB) (pid : Nat) : Option Project :=
  db.projects.find? (fun p => p.id == pid)

/-- Contributor.objects.filter(project_id=pid, user_id=author): the filter
used by the guard in Project.save. -/
def contributorRowsFor (cs : List Contributor) (pid : Nat)
    (author : Option UserId) : List Contributor :=
  cs.filter (fun c => c.project_id == some pid && c.user_id == author)

/-- Project.save (core/models.py lines 70-81): persist the row via the
parent save, then create an owner Contributor when no Contributor row at
all exists for (project, author).  The created row has permission "OWN"
and role "Owner"; its primary key is auto-generated. -/
def Project.save (db : DB) (self : Project) : DB :=
  let projects :=
    if db.projects.any (fun q => q.id == self.id) then
      db.projects.map (fun q => if q.id == self.id then self else q)
    else
      db.projects ++ [self]
  let db1 : DB := { db with projects := projects }
  if (contributorRowsFor db1.contributors self.id self.author_user_id).length == 0 then
    { db1 with
      contributors := db1.contributors ++
        [⟨db1.nextContributorId, some self.id, self.author_user_id, "OWN", "Owner"⟩],
      nextContributorId := db1.nextContributorId + 1 }
  else
    db1

/-- HTTP methods the embedded routes distinguish. -/
inductive Method
  | GET
  | POST
  | PUT
  | PATCH
  | DELETE
deriving DecidableEq, Repr

/-- rest_framework SAFE_METHODS restricted to the methods modelled here. -/
def Method.isSafe : Method → Bool
  | .GET => true
  | _ => false

/-- IsOwnerOrReadOnly.has_object_permission (project/permissions.py lines
6-13): safe methods pass; otherwise the author field of the object must be
the requesting user.  Every object this class is attached to (Project,
Issue, Comment) has an author_user_id attribute, so the hasattr branch is
always taken; objAuthor is that attribute. -/
def IsOwnerOrReadOnly.has_object_permission (m : Method) (userId : UserId)
    (objAuthor : Option UserId) : Bool :=
  if m.isSafe then true
  else objAuthor == some userId

/-- isProjectOwner.has_object_permission (project/permissions.py lines
16-29): safe methods pass; otherwise the requesting user id must appear
among the user ids of the Contributor rows of the project of the object
that carry permission "OWN".  The class defines no has_permission, so its
view-level check is the BasePermission default (always true). -/
def isProjectOwner.has_object_permission (db : DB) (m : Method)
    (userId : UserId) (objProject : Option Nat) : Bool :=
  if m.isSafe then true
  else
    ((db.contributors.filter
        (fun c => c.project_id == objProject && c.permission == "OWN")).filterMap
      (fun c => c.user_id)).contains userId

/-- isProjectContributor.has_permission (project/permissions.py lines
44-51): the requesting user id must appear among the user ids of the
Contributor rows whose project is the project_pk URL parameter. -/
def isProjectContributor.has_permission (db : DB) (userId : UserId)
    (projectPk : Nat) : Bool :=
  ((db.contributors.filter
      (fun c => c.project_id == some projectPk)).filterMap
    (fun c => c.user_id)).contains userId

/-- Result of dispatching a request, as seen by the client. -/
inductive Outcome
  | allowed
  | forbidden
  | notFound
  | methodNotAllowed
  | validationError
  | internalError
deriving DecidableEq, Repr

/-- Request body for POST /projects (ProjectSerializer writable fields). -/
structure ProjectBody where
  title : String
  description : String
  type : String
deriving DecidableEq, Repr

/-- Request body for POST /projects/pk/users (ContributorSerializer
writable fields: user_id, permission, role; id and project_id are
read-only). -/
structure ContributorBody where
  user_id : UserId
  permission : String
  role : String
deriving DecidableEq, Repr

/-- Request body for issue create and update.  author_user_id and
project_id appear in the serializer fields but are read-only, so a client
supplied value is carried here only to show it is ignored. -/
structure IssueBody where
  title : String
  description : String
  tag : String
  priority : String
  status : String
  assignee_user_id : Option UserId
  author_user_id : Option UserId
  project_id : Option Nat
deriving DecidableEq, Repr

/-- Request body for comment create and update.  author_user_id and
issue_id are read-only serializer fields, carried only to show they are
ignored. -/
structure CommentBody where
  description : String
  author_user_id : Option UserId
  issue_id : Option Nat
deriving DecidableEq, Repr

/-- Permission values accepted by ContributorSerializer.validate_permission
(Contributor.PERMISSION_CHOICES first components). -/
def permissionChoices : List String := ["CTR", "OWN"]

/-- GET /projects/project_pk/users (ContributorViewSet list).  View-level
checks: IsAuthenticated passes, isProjectOwner has no has_permission, so
every authenticated principal reaches the handler.  The queryset filters
by the project_pk URL parameter; get_serializer_context then runs
Project.objects.get(id=project_pk), which raises an uncaught DoesNotExist
when the project is absent. -/
def ContributorViewSet.list (db : DB) (principal : UserId) (projectPk : Nat) :
    Outcome × List Contributor :=
  let _ := principal
  let qs := db.contributors.filter (fun c => c.project_id == some projectPk)
  match findProject db projectPk with
  | none => (Outcome.internalError, [])
  | some _ => (Outcome.allowed, qs)

/-- POST /projects/project_pk/users (ContributorViewSet create, views.py
lines 79-85).  View-level permission checks pass for every authenticated
principal (see list).  The overridden create first checks that the project
exists and returns 404 otherwise; then the serializer validates that the
referenced user exists (PrimaryKeyRelatedField) and that permission is one
of the declared choices, and saves a Contributor whose project is taken
from the serializer context.  The insert is subject to the unique_together
(project_id, user_id) constraint of core/models.py lines 108-109; the
serializer layer cannot report it as a 400 because project_id is a
read-only field without a default, which makes the framework skip the
generated uniqueness validator, so inserting a duplicate pair raises an
uncaught IntegrityError at the database layer. -/
def ContributorViewSet.create (db : DB) (principal : UserId) (projectPk : Nat)
    (body : ContributorBody) : Outcome × DB :=
  let _ := principal
  match findProject db projectPk with
  | none => (Outcome.notFound, db)
  | some proj =>
    if !(db.users.contains body.user_id) then
      (Outcome.validationError, db)
    else if !(permissionChoices.contains body.permission) then
      (Outcome.validationError, db)
    else if db.contributors.any (fun c =>
        c.project_id == some proj.id && c.user_id == some body.user_id) then
      (Outcome.internalError, db)
    else
      (Outcome.allowed,
        { db with
          contributors := db.contributors ++
            [⟨db.nextContributorId, some proj.id, some body.user_id,
              body.permission, body.role⟩],
          nextContributorId := db.nextContributorId + 1 })

/-- DELETE /projects/project_pk/users/pk (ContributorViewSet destroy).
get_object looks the row up in the queryset filtered by project_pk and
raises 404 when absent; check_object_permissions then runs
isProjectOwner.has_object_permission with the DELETE method. -/
def ContributorViewSet.destroy (db : DB) (principal : UserId)
    (projectPk : Nat) (pk : Nat) : Outcome × DB :=
  let qs := db.contributors.filter (fun c => c.project_id == some projectPk)
  match qs.find? (fun c => c.id == pk) with
  | none => (Outcome.notFound, db)
  | some c =>
    if isProjectOwner.has_object_permission db .DELETE principal c.project_id then
      (Outcome.allowed,
        { db with contributors := db.contributors.filter (fun x => x.id != pk) })
    else
      (Outcome.forbidden, db)

/-- ProjectViewSet.get_queryset (views.py lines 34-37): the projects in
which the requesting user holds a Contributor row.  The order_by clause
only affects list ordering and is irrelevant to the verified properties,
so it is not reproduced. -/
def ProjectViewSet.get_queryset (db : DB) (principal : UserId) : List Project :=
  db.projects.filter (fun p =>
    db.contributors.any (fun c =>
      c.project_id == some p.id && c.user_id == some principal))

/-- POST /projects (ProjectViewSet create + perform_create): the serializer
saves a Project whose author is the requesting user, which triggers
Project.save and hence the owner-membership guard. -/
def ProjectViewSet.create (db : DB) (principal : UserId) (body : ProjectBody) :
    Outcome × DB :=
  let p : Project := ⟨db.nextProjectId, body.title, body.description,
    body.type, some principal⟩
  (Outcome.allowed, Project.save { db with nextProjectId := db.nextProjectId + 1 } p)

/-- PUT /projects/pk (ProjectViewSet update).  get_object searches the
membership-filtered queryset (404 when absent), check_object_permissions
runs IsOwnerOrReadOnly with the PUT method, and on success the serializer
writes the body fields and calls the model save, which re-runs the
owner-membership guard. -/
def ProjectViewSet.update (db : DB) (principal : UserId) (pk : Nat)
    (body : ProjectBody) : Outcome × DB :=
  match (ProjectViewSet.get_queryset db principal).find? (fun p => p.id == pk) with
  | none => (Outcome.notFound, db)
  | some p =>
    if IsOwnerOrReadOnly.has_object_permission .PUT principal p.author_user_id then
      (Outcome.allowed,
        Project.save db
          { p with title := body.title, description := body.description,
                   type := body.type })
    else
      (Outcome.forbidden, db)

/-- DELETE /projects/pk (ProjectViewSet destroy).  Same object lookup and
object-level check as update; deletion cascades to the issues of the
project and to the comments of those issues, and nulls the project field
of its Contributor rows (SET_NULL). -/
def ProjectViewSet.destroy (db : DB) (principal : UserId) (pk : Nat) :
    Outcome × DB :=
  match (ProjectViewSet.get_queryset db principal).find? (fun p => p.id == pk) with
  | none => (Outcome.notFound, db)
  | some p =>
    if IsOwnerOrReadOnly.has_object_permission .DELETE principal p.author_user_id then
      (Outcome.allowed,
        { db with
          projects := db.projects.filter (fun q => q.id != p.id),
          issues := db.issues.filter (fun i => i.project_id != p.id),
          comments := db.comments.filter (fun c =>
            !(db.issues.any (fun i => i.id == c.issue_id && i.project_id == p.id))),
          contributors := db.contributors.map (fun c =>
            if c.project_id == some p.id then { c with project_id := none } else c) })
    else
      (Outcome.forbidden, db)

/-- PATCH /projects/pk (ProjectViewSet, views.py lines 49-51).  View-level
checks pass for every authenticated principal (IsOwnerOrReadOnly has no
has_permission); the overridden handler then returns 405 without touching
the object, so no 404 and no object-level check can occur. -/
def ProjectViewSet.patch (db : DB) (principal : UserId) (pk : Nat) : Outcome :=
  let _ := db
  let _ := principal
  let _ := pk
  Outcome.methodNotAllowed

/-- GET /projects/project_pk/issues (IssueViewSet list).  View-level
checks: isProjectContributor.has_permission gates on membership in the
project_pk project; IsAuthenticated passes; IsOwnerOrReadOnly has no
has_permission.  get_serializer_context runs Project.objects.get, uncaught
when the project is absent (membership in a truly absent project is
impossible in honest states, but the model keeps the code path). -/
def IssueViewSet.list (db : DB) (principal : UserId) (projectPk : Nat) :
    Outcome × List Issue :=
  if !(isProjectContributor.has_permission db principal projectPk) then
    (Outcome.forbidden, [])
  else
    match findProject db projectPk with
    | none => (Outcome.internalError, [])
    | some _ => (Outcome.allowed, db.issues.filter (fun i => i.project_id == projectPk))

/-- POST /projects/project_pk/issues (IssueViewSet create).  After the
membership gate, get_serializer_context supplies the project row and the
raw assignee_user_id from the request body; IssueSerializer.validate
(serializers.py lines 92-112) rejects an explicit assignee that holds no
Contributor row in the project, and defaults an omitted assignee to the
requesting user; perform_create then saves with author_user_id set to the
requesting user.  The read-only author_user_id and project_id body fields
never reach the saved data. -/
def IssueViewSet.create (db : DB) (principal : UserId) (projectPk : Nat)
    (body : IssueBody) : Outcome × DB × Option Issue :=
  if !(isProjectContributor.has_permission db principal projectPk) then
    (Outcome.forbidden, db, none)
  else
    match findProject db projectPk with
    | none => (Outcome.internalError, db, none)
    | some proj =>
      match body.assignee_user_id with
      | some aid =>
        if (db.contributors.filter (fun c =>
              c.user_id == some aid && c.project_id == some proj.id)).length == 0 then
          (Outcome.validationError, db, none)
        else
          let issue : Issue := ⟨db.nextIssueId, body.title, body.description,
            body.tag, body.priority, body.status, proj.id, some principal, some aid⟩
          (Outcome.allowed,
            { db with issues := db.issues ++ [issue],
                      nextIssueId := db.nextIssueId + 1 },
            some issue)
      | none =>
        let issue : Issue := ⟨db.nextIssueId, body.title, body.description,
          body.tag, body.priority, body.status, proj.id, some principal,
          some principal⟩
        (Outcome.allowed,
          { db with issues := db.issues ++ [issue],
                    nextIssueId := db.nextIssueId + 1 },
          some issue)

/-- PATCH /projects/project_pk/issues/pk (IssueViewSet, views.py lines
121-123).  The membership gate runs first (view-level); only then does the
overridden handler return 405. -/
def IssueViewSet.patch (db : DB) (principal : UserId) (projectPk : Nat)
    (pk : Nat) : Outcome :=
  let _ := pk
  if !(isProjectContributor.has_permission db principal projectPk) then
    Outcome.forbidden
  else
    Outcome.methodNotAllowed

/-- GET /projects/project_pk/issues/issue_pk/comments (CommentViewSet
list).  The membership gate uses the project_pk URL parameter; the
queryset filters by the issue_pk URL parameter only (views.py lines
151-153), with no check that the issue belongs to that project. -/
def CommentViewSet.list (db : DB) (principal : UserId) (projectPk : Nat)
    (issuePk : Nat) : Outcome × List Comment :=
  if !(isProjectContributor.has_permission db principal projectPk) then
    (Outcome.forbidden, [])
  else
    (Outcome.allowed, db.comments.filter (fun c => c.issue_id == issuePk))

/-- POST /projects/project_pk/issues/issue_pk/comments (CommentViewSet
create).  Membership gate on project_pk; CommentSerializer rejects an
empty description; perform_create looks the issue up by issue_pk with a
bare get (uncaught DoesNotExist when absent) and saves with
author_user_id set to the requesting user.  The read-only author_user_id
and issue_id body fields never reach the saved data. -/
def CommentViewSet.create (db : DB) (principal : UserId) (projectPk : Nat)
    (issuePk : Nat) (body : CommentBody) : Outcome × DB × Option Comment :=
  if !(isProjectContributor.has_permission db principal projectPk) then
    (Outcome.forbidden, db, none)
  else if body.description == "" then
    (Outcome.validationError, db, none)
  else
    match db.issues.find? (fun i => i.id == issuePk) with
    | none => (Outcome.internalError, db, none)
    | some issue =>
      let c : Comment := ⟨db.nextCommentId, issue.id, some principal,
        body.description⟩
      (Outcome.allowed,
        { db with comments := db.comments ++ [c],
                  nextCommentId := db.nextCommentId + 1 },
        some c)

/-- PATCH /projects/project_pk/issues/issue_pk/comments/pk
(CommentViewSet, views.py lines 155-157).  Same shape as the issue case:
membership gate first, then the handler returns 405. -/
def CommentViewSet.patch (db : DB) (principal : UserId) (projectPk : Nat)
    (issuePk : Nat) (pk : Nat) : Outcome :=
  let _ := issuePk
  let _ := pk
  if !(isProjectContributor.has_permission db principal projectPk) then
    Outcome.forbidden
  else
    Outcome.methodNotAllowed

/-- A small concrete store used to evaluate the verified statements:
users 1, 2, 3; project 1 authored by user 1 with owner row (id 1) and a
plain contributor row for user 2 (id 2); project 2 authored by user 3
with owner row (id 3); issue 10 inside project 2; comment 100 on issue
10. -/
def dbA : DB :=
  { users := [1, 2, 3]
    projects := [⟨1, "p", "d", "back", some 1⟩, ⟨2, "q", "e", "front", some 3⟩]
    contributors := [⟨1, some 1, some 1, "OWN", "Owner"⟩,
                     ⟨2, some 1, some 2, "CTR", "dev"⟩,
                     ⟨3, some 2, some 3, "OWN", "Owner"⟩]
    issues := [⟨10, "i", "d", "bug", "high", "todo", 2, some 3, some 3⟩]
    comments := [⟨100, 10, some 3, "hello"⟩]
    nextProjectId := 3
    nextContributorId := 4
    nextIssueId := 11
    nextCommentId := 101 }

/-- C2 counterexample: the claim says membership list/create is allowed if
and only if the principal holds OWNER membership, with any authenticated
non-owner receiving FORBIDDEN.  In the concrete store, user 2 holds only a
CTR row in project 1 and user 3 holds no row at all there, yet user 2 may
list the members of project 1 and user 3 may add itself to project 1 (a
pair not yet present, so the uniqueness constraint is silent): the
isProjectOwner class defines no has_permission, so list and create are
not gated beyond authentication. -/
theorem C2_counterexample :
    (ContributorViewSet.list dbA 2 1).1 = Outcome.allowed ∧
    (ContributorViewSet.create dbA 3 1 ⟨3, "CTR", "helper"⟩).1 = Outcome.allowed ∧
    (∀ c ∈ dbA.contributors,
      c.project_id = some 1 → c.permission = "OWN" → c.user_id = some 1) := by
  decide

/-- C2 (amended): for an existing project, membership list is allowed for
every authenticated principal, owner or not, and membership create for a
valid body is likewise ungated by role: it succeeds for every principal
when the (project, user) pair is new, and for every principal ends in an
uncaught IntegrityError (never FORBIDDEN) when the pair already exists;
the OWNER requirement applies only to the object-level (deletion)
check. -/
theorem C2_contributor_list_create_ungated (db : DB) (principal : UserId)
    (projectPk : Nat) (proj : Project) (body : ContributorBody)
    (hproj : findProject db projectPk = some proj)
    (huser : db.users.contains body.user_id = true)
    (hperm : permissionChoices.contains body.permission = true) :
    (ContributorViewSet.list db principal projectPk).1 = Outcome.allowed ∧
    ((∀ c ∈ db.contributors,
        ¬(c.project_id = some proj.id ∧ c.user_id = some body.user_id)) →
      (ContributorViewSet.create db principal projectPk body).1 =
        Outcome.allowed) ∧
    ((∃ c ∈ db.contributors,
        c.project_id = some proj.id ∧ c.user_id = some body.user_id) →
      ContributorViewSet.create db principal projectPk body =
        (Outcome.internalError, db)) := by
  have hu : body.user_id ∈ db.users := by simpa using huser
  have hc : body.permission ∈ permissionChoices := by simpa using hperm
  refine ⟨?_, ?_, ?_⟩
  · simp [ContributorViewSet.list, hproj]
  · intro hnodup
    have hany : (db.contributors.any (fun c =>
        c.project_id == some proj.id && c.user_id == some body.user_id))
        = false := by
      rw [List.any_eq_false]
      intro c hcmem
      simpa using hnodup c hcmem
    simp [ContributorViewSet.create, hproj, hu, hc, hany]
  · rintro ⟨c, hcmem, hcp, hcu⟩
    have hany : (db.contributors.any (fun c =>
        c.project_id == some proj.id && c.user_id == some body.user_id))
        = true :=
      List.any_eq_true.mpr ⟨c, hcmem, by simp [hcp, hcu]⟩
    simp [ContributorViewSet.create, hproj, hu, hc, hany]

/-- C2 witness: the amended statement evaluated in the concrete store for
principal 3, who is not even a member of project 1, adding user 3, a pair
not yet present. -/
theorem C2_contributor_list_create_ungated_witness :
    (ContributorViewSet.list dbA 3 1).1 = Outcome.allowed ∧
    (ContributorViewSet.create dbA 3 1 ⟨3, "CTR", "helper"⟩).1 = Outcome.allowed := by
  have h := C2_contributor_list_create_ungated dbA 3 1 ⟨1, "p", "d", "back", some 1⟩
    ⟨3, "CTR", "helper"⟩ (by decide) (by decide) (by decide)
  exact ⟨h.1, h.2.1 (by decide)⟩

/-- C3 counterexample: the claim says a contributor list operation on a
nonexistent project reports NOT_FOUND.  Listing the members of absent
project 99 instead ends in an uncaught DoesNotExist raised by
get_serializer_context (an internal error), not in NOT_FOUND. -/
theorem C3_counterexample :
    findProject dbA 99 = none ∧
    (ContributorViewSet.list dbA 1 99).1 = Outcome.internalError ∧
    (ContributorViewSet.list dbA 1 99).1 ≠ Outcome.notFound := by
  decide

/-- C3 (amended): for every principal, a contributor create on a
nonexistent project reports NOT_FOUND and leaves the store unchanged, and
a non-member indeed receives 404 rather than 403 there because the
view-level permission layer never rejects create; a contributor list on a
nonexistent project however ends in an uncaught error, not NOT_FOUND. -/
theorem C3_nonexistent_project_contributor (db : DB) (principal : UserId)
    (projectPk : Nat) (body : ContributorBody)
    (habs : findProject db projectPk = none) :
    ContributorViewSet.create db principal projectPk body = (Outcome.notFound, db) ∧
    (ContributorViewSet.list db principal projectPk).1 = Outcome.internalError := by
  refine ⟨?_, ?_⟩
  · simp [ContributorViewSet.create, habs]
  · simp [ContributorViewSet.list, habs]

/-- C3 witness: the amended statement evaluated on absent project 99 for
principal 3, a non-member. -/
theorem C3_nonexistent_project_contributor_witness :
    ContributorViewSet.create dbA 3 99 ⟨2, "CTR", "x"⟩ = (Outcome.notFound, dbA) ∧
    (ContributorViewSet.list dbA 3 99).1 = Outcome.internalError :=
  C3_nonexistent_project_contributor dbA 3 99 ⟨2, "CTR", "x"⟩ (by decide)

/-- C5 counterexample: the claim says comment list/create under an issue
is allowed only with Membership in the project of that issue, and that
membership in any other project never grants access.  User 1 holds no
membership in project 2, the project of issue 10, yet listing and
creating comments under issue 10 through the path of project 1 (where
user 1 is a member) is allowed: the gate reads only the project_pk URL
parameter and the queryset never compares the issue to it. -/
theorem C5_counterexample :
    ((dbA.issues.find? (fun i => i.id == 10)).map Issue.project_id = some 2) ∧
    (∀ c ∈ dbA.contributors, c.project_id = some 2 → c.user_id ≠ some 1) ∧
    CommentViewSet.list dbA 1 1 10 = (Outcome.allowed, [⟨100, 10, some 3, "hello"⟩]) ∧
    (CommentViewSet.create dbA 1 1 10 ⟨"intrusive", none, none⟩).1 = Outcome.allowed := by
  decide

/-- C5 (amended): comment list and create under issue_pk are allowed
exactly when the principal holds Membership in the project_pk URL
parameter; the project of the issue itself is never consulted. -/
theorem C5_comment_access_gated_by_url_project (db : DB) (principal : UserId)
    (projectPk issuePk : Nat) (body : CommentBody)
    (hdesc : body.description ≠ "")
    (hissue : ∃ i, db.issues.find? (fun x => x.id == issuePk) = some i) :
    ((CommentViewSet.list db principal projectPk issuePk).1 = Outcome.allowed ↔
      isProjectContributor.has_permission db principal projectPk = true) ∧
    ((CommentViewSet.create db principal projectPk issuePk body).1 = Outcome.allowed ↔
      isProjectContributor.has_permission db principal projectPk = true) := by
  obtain ⟨i, hi⟩ := hissue
  have hd : (body.description == "") = false := by
    simpa using hdesc
  cases hmem : isProjectContributor.has_permission db principal projectPk with
  | true => simp [CommentViewSet.list, CommentViewSet.create, hmem, hd, hi]
  | false => simp [CommentViewSet.list, CommentViewSet.create, hmem, hd, hi]

/-- C5 witness: the amended statement evaluated for user 1 on the path of
project 1 and issue 10. -/
theorem C5_comment_access_gated_by_url_project_witness :
    ((CommentViewSet.list dbA 1 1 10).1 = Outcome.allowed ↔
      isProjectContributor.has_permission dbA 1 1 = true) ∧
    ((CommentViewSet.create dbA 1 1 10 ⟨"hi", none, none⟩).1 = Outcome.allowed ↔
      isProjectContributor.has_permission dbA 1 1 = true) :=
  C5_comment_access_gated_by_url_project dbA 1 1 10 ⟨"hi", none, none⟩
    (by decide) ⟨⟨10, "i", "d", "bug", "high", "todo", 2, some 3, some 3⟩, by decide⟩

/-- C8 counterexample: the claim says the OWNER membership row of a
project is never deleted because that deletion path is not exposed.  In
the concrete store, row 1 is the OWNER membership of user 1 in project 1,
and user 1 deleting it through the contributor destroy route is allowed
and removes the row. -/
theorem C8_counterexample :
    dbA.contributors.head? = some ⟨1, some 1, some 1, "OWN", "Owner"⟩ ∧
    (ContributorViewSet.destroy dbA 1 1 1).1 = Outcome.allowed ∧
    (⟨1, some 1, some 1, "OWN", "Owner"⟩ : Contributor) ∉
      (ContributorViewSet.destroy dbA 1 1 1).2.contributors := by
  decide

/-- C8 (amended): the contributor destroy route deletes the addressed row,
including an OWNER row and including the own row of the requesting owner,
exactly when the principal holds OWNER membership in the project of that
row; a non-owner receives FORBIDDEN. -/
theorem C8_contributor_destroy_owner_gate (db : DB) (principal : UserId)
    (projectPk pk : Nat) (crow : Contributor)
    (hfind : (db.contributors.filter
        (fun c => c.project_id == some projectPk)).find?
        (fun c => c.id == pk) = some crow) :
    ((ContributorViewSet.destroy db principal projectPk pk).1 = Outcome.allowed ↔
      isProjectOwner.has_object_permission db .DELETE principal crow.project_id = true) ∧
    ((ContributorViewSet.destroy db principal projectPk pk).1 ≠ Outcome.allowed →
      (ContributorViewSet.destroy db principal projectPk pk).1 = Outcome.forbidden) ∧
    ((ContributorViewSet.destroy db principal projectPk pk).1 = Outcome.allowed →
      crow ∉ (ContributorViewSet.destroy db principal projectPk pk).2.contributors) := by
  have hid : crow.id = pk := by
    have := List.find?_some hfind
    simpa using this
  cases hperm : isProjectOwner.has_object_permission db .DELETE principal crow.project_id with
  | true =>
    refine ⟨by simp [ContributorViewSet.destroy, hfind, hperm], ?_, ?_⟩
    · intro h
      exact absurd (by simp [ContributorViewSet.destroy, hfind, hperm]) h
    · intro _
      simp only [ContributorViewSet.destroy, hfind, hperm, if_pos]
      intro hmem
      have := (List.mem_filter.mp hmem).2
      simp [hid] at this
  | false =>
    refine ⟨by simp [ContributorViewSet.destroy, hfind, hperm], ?_, ?_⟩
    · intro _
      simp [ContributorViewSet.destroy, hfind, hperm]
    · intro h
      rw [show (ContributorViewSet.destroy db principal projectPk pk).1 =
        Outcome.forbidden by simp [ContributorViewSet.destroy, hfind, hperm]] at h
      cases h

/-- C8 witness: the amended statement evaluated for owner 1 deleting the
plain contributor row 2 of project 1. -/
theorem C8_contributor_destroy_owner_gate_witness :
    ((ContributorViewSet.destroy dbA 1 1 2).1 = Outcome.allowed ↔
      isProjectOwner.has_object_permission dbA .DELETE 1 (some 1) = true) ∧
    ((ContributorViewSet.destroy dbA 1 1 2).1 ≠ Outcome.allowed →
      (ContributorViewSet.destroy dbA 1 1 2).1 = Outcome.forbidden) ∧
    ((ContributorViewSet.destroy dbA 1 1 2).1 = Outcome.allowed →
      (⟨2, some 1, some 2, "CTR", "dev"⟩ : Contributor) ∉
        (ContributorViewSet.destroy dbA 1 1 2).2.contributors) :=
  C8_contributor_destroy_owner_gate dbA 1 1 2 ⟨2, some 1, some 2, "CTR", "dev"⟩
    (by decide)

/-- C9 counterexample: the claim says PATCH on any project, issue or
comment detail route returns 405 for every caller and permission level.
User 2 holds no membership in project 2, and a PATCH on the detail route
of issue 10 under project 2 returns FORBIDDEN, not 405: the view-level
membership gate runs before the overridden handler. -/
theorem C9_counterexample :
    isProjectContributor.has_permission dbA 2 2 = false ∧
    IssueViewSet.patch dbA 2 2 10 = Outcome.forbidden ∧
    IssueViewSet.patch dbA 2 2 10 ≠ Outcome.methodNotAllowed := by
  decide

/-- C9 (amended): for every authenticated principal, PATCH on a project
detail route returns 405 unconditionally; PATCH on an issue or comment
detail route returns 405 when the principal holds Membership in the
project_pk URL parameter and FORBIDDEN otherwise. -/
theorem C9_patch_dispatch (db : DB) (principal : UserId)
    (pk projectPk ipk issuePk cpk : Nat) :
    ProjectViewSet.patch db principal pk = Outcome.methodNotAllowed ∧
    (isProjectContributor.has_permission db principal projectPk = true →
      IssueViewSet.patch db principal projectPk ipk = Outcome.methodNotAllowed ∧
      CommentViewSet.patch db principal projectPk issuePk cpk =
        Outcome.methodNotAllowed) ∧
    (isProjectContributor.has_permission db principal projectPk = false →
      IssueViewSet.patch db principal projectPk ipk = Outcome.forbidden ∧
      CommentViewSet.patch db principal projectPk issuePk cpk =
        Outcome.forbidden) := by
  refine ⟨rfl, ?_, ?_⟩
  · intro h
    exact ⟨by simp [IssueViewSet.patch, h], by simp [CommentViewSet.patch, h]⟩
  · intro h
    exact ⟨by simp [IssueViewSet.patch, h], by simp [CommentViewSet.patch, h]⟩

/-- C9 witness: the amended statement evaluated for user 2, a member of
project 1 but not of project 2. -/
theorem C9_patch_dispatch_witness :
    ProjectViewSet.patch dbA 2 1 = Outcome.methodNotAllowed ∧
    IssueViewSet.patch dbA 2 1 10 = Outcome.methodNotAllowed ∧
    IssueViewSet.patch dbA 2 2 10 = Outcome.forbidden := by
  have h1 := C9_patch_dispatch dbA 2 1 1 10 10 100
  have h2 := C9_patch_dispatch dbA 2 1 2 10 10 100
  exact ⟨h1.1, (h1.2.1 (by decide)).1, (h2.2.2 (by decide)).1⟩

/-- No Contributor row of a project appears in the guard filter of
Project.save when no row references that project at all. -/
theorem contributorRowsFor_eq_nil (cs : List Contributor) (pid : Nat)
    (author : Option UserId) (h : ∀ c ∈ cs, c.project_id ≠ some pid) :
    contributorRowsFor cs pid author = [] := by
  induction cs with
  | nil => rfl
  | cons c t ih =>
    have hc : (c.project_id == some pid) = false := by
      simpa using h c (by simp)
    have ht : ∀ x ∈ t, x.project_id ≠ some pid := fun x hx => h x (by simp [hx])
    simpa [contributorRowsFor, List.filter_cons, hc] using ih ht

/-- Same statement for the filter that additionally selects permission
"OWN". -/
theorem ownRowsFilter_eq_nil (cs : List Contributor) (pid : Nat)
    (author : Option UserId) (h : ∀ c ∈ cs, c.project_id ≠ some pid) :
    cs.filter (fun c => c.project_id == some pid && c.user_id == author &&
      c.permission == "OWN") = [] := by
  induction cs with
  | nil => rfl
  | cons c t ih =>
    have hc : (c.project_id == some pid) = false := by
      simpa using h c (by simp)
    have ht : ∀ x ∈ t, x.project_id ≠ some pid := fun x hx => h x (by simp [hx])
    simpa [List.filter_cons, hc] using ih ht

/-- Project.save leaves the Contributor table unchanged when the guard
filter is nonempty. -/
theorem Project.save_contributors_stable (db : DB) (p : Project)
    (h : contributorRowsFor db.contributors p.id p.author_user_id ≠ []) :
    (Project.save db p).contributors = db.contributors := by
  have hlen : (contributorRowsFor db.contributors p.id p.author_user_id).length ≠ 0 := by
    simpa [List.length_eq_zero] using h
  have hbeq : ((contributorRowsFor db.contributors p.id p.author_user_id).length == 0)
      = false := by
    simpa using hlen
  simp [Project.save, hbeq]

/-- Project.save appends exactly the owner row when the guard filter is
empty. -/
theorem Project.save_contributors_fresh (db : DB) (p : Project)
    (h : contributorRowsFor db.contributors p.id p.author_user_id = []) :
    (Project.save db p).contributors = db.contributors ++
      [⟨db.nextContributorId, some p.id, p.author_user_id, "OWN", "Owner"⟩] := by
  simp [Project.save, h]

/-- Iterating Project.save never touches the Contributor table once the
guard filter for the saved project is nonempty. -/
theorem Project.save_iterate_contributors (p : Project) (k : Nat) :
    ∀ d : DB, contributorRowsFor d.contributors p.id p.author_user_id ≠ [] →
      ((fun x => Project.save x p)^[k] d).contributors = d.contributors := by
  induction k with
  | zero => intro d _; rfl
  | succ k ih =>
    intro d hd
    rw [Function.iterate_succ_apply]
    have hs := Project.save_contributors_stable d p hd
    have hd2 : contributorRowsFor (Project.save d p).contributors p.id
        p.author_user_id ≠ [] := by rw [hs]; exact hd
    rw [ih _ hd2, hs]

/-- C1: for a project no Contributor row references yet, one invocation of
the creation save produces exactly one Contributor row for (project,
author) with permission OWN, and any number of further invocations of the
same creation logic leaves that count at exactly one. -/
theorem C1_creation_owner_membership_unique (db : DB) (p : Project) (n : Nat)
    (hfresh : ∀ c ∈ db.contributors, c.project_id ≠ some p.id) :
    (((fun d => Project.save d p)^[n + 1] db).contributors.filter
      (fun c => c.project_id == some p.id && c.user_id == p.author_user_id &&
        c.permission == "OWN")).length = 1 := by
  have h0 : contributorRowsFor db.contributors p.id p.author_user_id = [] :=
    contributorRowsFor_eq_nil _ _ _ hfresh
  have h1 := Project.save_contributors_fresh db p h0
  have hne : contributorRowsFor (Project.save db p).contributors p.id
      p.author_user_id ≠ [] := by
    rw [h1]
    simp [contributorRowsFor, List.filter_append]
  have hiter : ((fun d => Project.save d p)^[n + 1] db).contributors =
      (Project.save db p).contributors := by
    rw [Function.iterate_succ_apply]
    exact Project.save_iterate_contributors p n _ hne
  rw [hiter, h1, List.filter_append, ownRowsFilter_eq_nil _ _ _ hfresh]
  simp

/-- C1 witness: project 3 with author 2 saved twice into the concrete
store, which holds no row for project 3. -/
theorem C1_creation_owner_membership_unique_witness :
    (((fun d => Project.save d (⟨3, "r", "s", "iOS", some 2⟩ : Project))^[2]
        dbA).contributors.filter
      (fun c => c.project_id == some 3 && c.user_id == some 2 &&
        c.permission == "OWN")).length = 1 :=
  C1_creation_owner_membership_unique dbA ⟨3, "r", "s", "iOS", some 2⟩ 1
    (by decide)

/-- C10: every save of a project, in particular a save of a project row
that already exists (an update), re-runs the guard; when no Contributor
row for (project, author) is present the save creates the owner row, so
the rows for (project, author) afterwards are exactly the one freshly
created OWN row. -/
theorem C10_update_restores_owner_membership (db : DB) (p : Project)
    (hin : p ∈ db.projects)
    (hnone : contributorRowsFor db.contributors p.id p.author_user_id = []) :
    (Project.save db p).contributors.filter
      (fun c => c.project_id == some p.id && c.user_id == p.author_user_id) =
    [⟨db.nextContributorId, some p.id, p.author_user_id, "OWN", "Owner"⟩] := by
  have _ := hin
  rw [Project.save_contributors_fresh db p hnone, List.filter_append]
  have hold : db.contributors.filter
      (fun c => c.project_id == some p.id && c.user_id == p.author_user_id) = [] :=
    hnone
  rw [hold]
  simp

/-- The concrete store after the owner membership of project 1 has been
removed: project 1 still exists but no Contributor row links user 1 to
it. -/
def dbB : DB :=
  { dbA with contributors := [⟨2, some 1, some 2, "CTR", "dev"⟩,
                              ⟨3, some 2, some 3, "OWN", "Owner"⟩] }

/-- C10 witness: saving existing project 1 in the store that lost its
owner membership recreates exactly the OWN row for (1, user 1). -/
theorem C10_update_restores_owner_membership_witness :
    (Project.save dbB ⟨1, "p", "d", "back", some 1⟩).contributors.filter
      (fun c => c.project_id == some 1 && c.user_id == some 1) =
    [⟨dbB.nextContributorId, some 1, some 1, "OWN", "Owner"⟩] :=
  C10_update_restores_owner_membership dbB ⟨1, "p", "d", "back", some 1⟩
    (by decide) (by decide)

/-- In a list whose keys are distinct, find? by key returns the unique
element carrying that key. -/
theorem find?_eq_some_of_nodup_keys {α : Type} (f : α → Nat) (l : List α)
    (hnd : (l.map f).Nodup) (a : α) (ha : a ∈ l) (pk : Nat) (hfa : f a = pk) :
    l.find? (fun x => f x == pk) = some a := by
  induction l with
  | nil => cases ha
  | cons b t ih =>
    have hndc : (f b :: t.map f).Nodup := by simpa using hnd
    have hnd2 : (f b ∉ t.map f) ∧ (t.map f).Nodup := List.nodup_cons.mp hndc
    cases hfb : (f b == pk) with
    | true =>
      have hfb2 : f b = pk := by simpa using hfb
      rcases List.mem_cons.mp ha with h | h
      · simp [List.find?_cons, hfb, h]
      · exfalso
        have hmap : f a ∈ t.map f := List.mem_map_of_mem f h
        rw [hfa, ← hfb2] at hmap
        exact hnd2.1 hmap
    | false =>
      have hat : a ∈ t := by
        rcases List.mem_cons.mp ha with h | h
        · exfalso
          rw [h] at hfa
          simp [hfa] at hfb
        · exact h
      simpa [List.find?_cons, hfb] using ih hnd2.2 hat

/-- An element returned by find? over a filtered list belongs to the base
list and carries the searched key. -/
theorem find?_filter_mem {α : Type} (f : α → Nat) (l : List α)
    (pred : α → Bool) (pk : Nat) (q : α)
    (h : (l.filter pred).find? (fun x => f x == pk) = some q) :
    q ∈ l ∧ f q = pk := by
  have hm := List.mem_of_find?_eq_some h
  have hq := List.find?_some h
  exact ⟨List.mem_of_mem_filter hm, by simpa using hq⟩

/-- C4: project mutation is author-only.  A PUT or DELETE on a project
detail route succeeds only when the principal is the author of the
project; a contributor who is not the author receives FORBIDDEN on both
mutations while the issue list of the same project stays readable. -/
theorem C4_project_mutation_author_only (db : DB) (principal : UserId)
    (pk : Nat) (p : Project) (body : ProjectBody)
    (hnodup : (db.projects.map Project.id).Nodup)
    (hp : findProject db pk = some p) :
    ((ProjectViewSet.update db principal pk body).1 = Outcome.allowed →
      p.author_user_id = some principal) ∧
    ((ProjectViewSet.destroy db principal pk).1 = Outcome.allowed →
      p.author_user_id = some principal) ∧
    ((∃ c ∈ db.contributors, c.project_id = some pk ∧ c.user_id = some principal) →
      p.author_user_id ≠ some principal →
      (ProjectViewSet.update db principal pk body).1 = Outcome.forbidden ∧
      (ProjectViewSet.destroy db principal pk).1 = Outcome.forbidden ∧
      (IssueViewSet.list db principal pk).1 = Outcome.allowed) := by
  have hpmem : p ∈ db.projects := List.mem_of_find?_eq_some hp
  have hpid : p.id = pk := by simpa using List.find?_some hp
  have hauthor : ∀ q : Project,
      (ProjectViewSet.get_queryset db principal).find? (fun x => x.id == pk) =
        some q →
      ∀ m : Method, m.isSafe = false →
      IsOwnerOrReadOnly.has_object_permission m principal q.author_user_id = true →
      p.author_user_id = some principal := by
    intro q hfind m hm hcond
    have hq : q.author_user_id = some principal := by
      have : (q.author_user_id == some principal) = true := by
        simpa [IsOwnerOrReadOnly.has_object_permission, hm] using hcond
      simpa using this
    have hqmem : q ∈ db.projects ∧ q.id = pk :=
      find?_filter_mem Project.id db.projects _ pk q hfind
    have : q = p :=
      List.inj_on_of_nodup_map hnodup hqmem.1 hpmem (by rw [hqmem.2, hpid])
    rw [← this]
    exact hq
  refine ⟨?_, ?_, ?_⟩
  · intro h
    unfold ProjectViewSet.update at h
    cases hfind : (ProjectViewSet.get_queryset db principal).find?
        (fun x => x.id == pk) with
    | none => rw [hfind] at h; simp at h
    | some q =>
      rw [hfind] at h
      by_cases hcond : IsOwnerOrReadOnly.has_object_permission .PUT principal
          q.author_user_id = true
      · exact hauthor q hfind .PUT rfl hcond
      · simp [hcond] at h
  · intro h
    unfold ProjectViewSet.destroy at h
    cases hfind : (ProjectViewSet.get_queryset db principal).find?
        (fun x => x.id == pk) with
    | none => rw [hfind] at h; simp at h
    | some q =>
      rw [hfind] at h
      by_cases hcond : IsOwnerOrReadOnly.has_object_permission .DELETE principal
          q.author_user_id = true
      · exact hauthor q hfind .DELETE rfl hcond
      · simp [hcond] at h
  · rintro ⟨c, hcin, hcp, hcu⟩ hne
    have hpred : (db.contributors.any (fun x =>
        x.project_id == some p.id && x.user_id == some principal)) = true :=
      List.any_eq_true.mpr ⟨c, hcin, by simp [hcp, hcu, hpid]⟩
    have hsub : ((ProjectViewSet.get_queryset db principal).map Project.id).Nodup := by
      unfold ProjectViewSet.get_queryset
      exact List.Nodup.sublist ((List.filter_sublist db.projects).map Project.id)
        hnodup
    have hfind : (ProjectViewSet.get_queryset db principal).find?
        (fun x => x.id == pk) = some p := by
      apply find?_eq_some_of_nodup_keys Project.id _ hsub p _ pk hpid
      unfold ProjectViewSet.get_queryset
      exact List.mem_filter.mpr ⟨hpmem, hpred⟩
    have hbeq : (p.author_user_id == some principal) = false := by
      simpa using hne
    have hcondf : ∀ m : Method, m.isSafe = false →
        IsOwnerOrReadOnly.has_object_permission m principal p.author_user_id
          = false := by
      intro m hm
      simp [IsOwnerOrReadOnly.has_object_permission, hm, hbeq]
    have hperm : isProjectContributor.has_permission db principal pk = true := by
      unfold isProjectContributor.has_permission
      have hmem2 : principal ∈ (db.contributors.filter
          (fun x => x.project_id == some pk)).filterMap
          (fun x => x.user_id) :=
        List.mem_filterMap.mpr ⟨c, List.mem_filter.mpr ⟨hcin, by simp [hcp]⟩, hcu⟩
      simpa using hmem2
    refine ⟨?_, ?_, ?_⟩
    · simp [ProjectViewSet.update, hfind, hcondf .PUT rfl]
    · simp [ProjectViewSet.destroy, hfind, hcondf .DELETE rfl]
    · simp [IssueViewSet.list, hperm, hp]

/-- C4 witness: user 2 holds a CTR row in project 1 but is not its author;
mutations are forbidden and the issue list stays readable. -/
theorem C4_project_mutation_author_only_witness :
    (ProjectViewSet.update dbA 2 1 ⟨"x", "y", "back"⟩).1 = Outcome.forbidden ∧
    (ProjectViewSet.destroy dbA 2 1).1 = Outcome.forbidden ∧
    (IssueViewSet.list dbA 2 1).1 = Outcome.allowed := by
  have h := C4_project_mutation_author_only dbA 2 1 ⟨1, "p", "d", "back", some 1⟩
    ⟨"x", "y", "back"⟩ (by decide) (by decide)
  exact h.2.2 ⟨⟨2, some 1, some 2, "CTR", "dev"⟩, by decide, by decide, by decide⟩
    (by decide)

/-- C6: issue creation assignee rules.  Without an explicit assignee the
stored issue carries the requesting principal as both assignee and
author; with an explicit assignee the creation succeeds only when that
user holds a Contributor row in the project, and otherwise ends in a
validation error with the store unchanged and nothing created. -/
theorem C6_issue_assignee_rules (db : DB) (principal : UserId)
    (projectPk : Nat) (proj : Project) (body : IssueBody)
    (hproj : findProject db projectPk = some proj)
    (hmem : isProjectContributor.has_permission db principal projectPk = true) :
    (body.assignee_user_id = none →
      (IssueViewSet.create db principal projectPk body).1 = Outcome.allowed ∧
      ∃ i, (IssueViewSet.create db principal projectPk body).2.2 = some i ∧
        i.assignee_user_id = some principal ∧
        i.author_user_id = some principal ∧
        i ∈ (IssueViewSet.create db principal projectPk body).2.1.issues) ∧
    (∀ aid, body.assignee_user_id = some aid →
      ((db.contributors.filter (fun c =>
          c.user_id == some aid && c.project_id == some proj.id)).length = 0 →
        IssueViewSet.create db principal projectPk body =
          (Outcome.validationError, db, none)) ∧
      ((db.contributors.filter (fun c =>
          c.user_id == some aid && c.project_id == some proj.id)).length ≠ 0 →
        (IssueViewSet.create db principal projectPk body).1 = Outcome.allowed ∧
        ∃ i, (IssueViewSet.create db principal projectPk body).2.2 = some i ∧
          i.assignee_user_id = some aid ∧
          i.author_user_id = some principal ∧
          i ∈ (IssueViewSet.create db principal projectPk body).2.1.issues)) := by
  refine ⟨?_, ?_⟩
  · intro hass
    refine ⟨by simp [IssueViewSet.create, hmem, hproj, hass], ?_⟩
    refine ⟨⟨db.nextIssueId, body.title, body.description, body.tag,
      body.priority, body.status, proj.id, some principal, some principal⟩,
      ?_, rfl, rfl, ?_⟩
    · simp [IssueViewSet.create, hmem, hproj, hass]
    · simp [IssueViewSet.create, hmem, hproj, hass]
  · intro aid hass
    refine ⟨?_, ?_⟩
    · intro hzero
      simp [IssueViewSet.create, hmem, hproj, hass, hzero]
    · intro hnz
      have hbeq : ((db.contributors.filter (fun c =>
          c.user_id == some aid && c.project_id == some proj.id)).length == 0)
          = false := by simpa using hnz
      refine ⟨by simp [IssueViewSet.create, hmem, hproj, hass, hbeq], ?_⟩
      refine ⟨⟨db.nextIssueId, body.title, body.description, body.tag,
        body.priority, body.status, proj.id, some principal, some aid⟩,
        ?_, rfl, rfl, ?_⟩
      · simp [IssueViewSet.create, hmem, hproj, hass, hbeq]
      · simp [IssueViewSet.create, hmem, hproj, hass, hbeq]

/-- C6 witness: issue creation by member 3 of project 2, once without an
explicit assignee and once with assignee 1, who holds no Contributor row
in project 2. -/
theorem C6_issue_assignee_rules_witness :
    ((IssueViewSet.create dbA 3 2
        ⟨"t", "d", "bug", "low", "todo", none, none, none⟩).1 = Outcome.allowed ∧
      ∃ i, (IssueViewSet.create dbA 3 2
          ⟨"t", "d", "bug", "low", "todo", none, none, none⟩).2.2 = some i ∧
        i.assignee_user_id = some 3 ∧
        i.author_user_id = some 3 ∧
        i ∈ (IssueViewSet.create dbA 3 2
          ⟨"t", "d", "bug", "low", "todo", none, none, none⟩).2.1.issues) ∧
    IssueViewSet.create dbA 3 2
        ⟨"t", "d", "bug", "low", "todo", some 1, none, none⟩ =
      (Outcome.validationError, dbA, none) := by
  have h1 := C6_issue_assignee_rules dbA 3 2 ⟨2, "q", "e", "front", some 3⟩
    ⟨"t", "d", "bug", "low", "todo", none, none, none⟩ (by decide) (by decide)
  have h2 := C6_issue_assignee_rules dbA 3 2 ⟨2, "q", "e", "front", some 3⟩
    ⟨"t", "d", "bug", "low", "todo", some 1, none, none⟩ (by decide) (by decide)
  exact ⟨h1.1 rfl, (h2.2 1 rfl).1 (by decide)⟩

/-- C7: for issue and comment creation, the stored author is always the
requesting principal, and the author field of the request body has no
influence on the result of the operation. -/
theorem C7_author_always_principal (db : DB) (principal : UserId)
    (projectPk issuePk : Nat) (ib : IssueBody) (cb : CommentBody)
    (a b : Option UserId) :
    (∀ i, (IssueViewSet.create db principal projectPk ib).2.2 = some i →
      i.author_user_id = some principal) ∧
    (∀ c, (CommentViewSet.create db principal projectPk issuePk cb).2.2 = some c →
      c.author_user_id = some principal) ∧
    IssueViewSet.create db principal projectPk { ib with author_user_id := a } =
      IssueViewSet.create db principal projectPk { ib with author_user_id := b } ∧
    CommentViewSet.create db principal projectPk issuePk
        { cb with author_user_id := a } =
      CommentViewSet.create db principal projectPk issuePk
        { cb with author_user_id := b } := by
  refine ⟨?_, ?_, ?_, ?_⟩
  · intro i hi
    unfold IssueViewSet.create at hi
    split at hi
    · cases hi
    · split at hi
      · cases hi
      · split at hi
        · split at hi
          · cases hi
          · cases hi
            rfl
        · cases hi
          rfl
  · intro c hc
    unfold CommentViewSet.create at hc
    split at hc
    · cases hc
    · split at hc
      · cases hc
      · split at hc
        · cases hc
        · cases hc
          rfl
  · simp [IssueViewSet.create]
  · simp [CommentViewSet.create]

/-- C7 witness: concrete issue and comment creations by member 3 of
project 2 under issue 10, with a client-supplied author of 9. -/
theorem C7_author_always_principal_witness :
    ((IssueViewSet.create dbA 3 2
        ⟨"t", "d", "bug", "low", "todo", none, some 9, some 7⟩).2.2.map
      Issue.author_user_id = some (some 3)) ∧
    ((CommentViewSet.create dbA 3 2 10 ⟨"hello", some 9, some 7⟩).2.2.map
      Comment.author_user_id = some (some 3)) := by
  have h := C7_author_always_principal dbA 3 2 10
    ⟨"t", "d", "bug", "low", "todo", none, some 9, some 7⟩
    ⟨"hello", some 9, some 7⟩ (some 9) (some 9)
  refine ⟨?_, ?_⟩
  · have hi := h.1 ⟨11, "t", "d", "bug", "low", "todo", 2, some 3, some 3⟩
      (by decide)
    simp [show (IssueViewSet.create dbA 3 2
      ⟨"t", "d", "bug", "low", "todo", none, some 9, some 7⟩).2.2 =
      some ⟨11, "t", "d", "bug", "low", "todo", 2, some 3, some 3⟩ from by decide,
      hi]
  · have hc := h.2.1 ⟨101, 10, some 3, "hello"⟩ (by decide)
    simp [show (CommentViewSet.create dbA 3 2 10
      ⟨"hello", some 9, some 7⟩).2.2 = some ⟨101, 10, some 3, "hello"⟩
      from by decide, hc]
